import Mathlib

/-!
Verification of the behavior-planning vehicle module
(`behavior-planning-python-2-solution/vehicle.py`, Python 2).

The Python class `Vehicle` is shallowly embedded: each method becomes a pure
Lean function on a `Vehicle` record; mutation of `self` is modelled by
returning the updated record; mutation of the `predictions` dictionary is
modelled by threading the dictionary's value through the call and returning
its final value.  Python exceptions (IndexError on list indexing/popping,
NameError on the unbound `L` in `collides_with`, AssertionError in the
trajectory loop) are modelled with `Except String`.

All Python numbers involved are integers (the module's own comment on
`configure`: "All of them are integers"), and the file is Python 2, so the
`/` operator on them is floor division: it is embedded as `Int.fdiv`.
Python dictionaries are embedded as insertion-ordered association lists;
`min`/`max` with a key function keep the first optimum, exactly as Python's
builtins do.
-/

/-- One predicted position record `{"s": ..., "lane": ...}`. -/
structure PredEntry where
  s : Int
  lane : Int
deriving DecidableEq

/-- One other-vehicle prediction: the ordered list of its future positions,
index 0 being the current position. -/
abbrev Prediction := List PredEntry

/-- The predictions dictionary, embedded as an insertion-ordered association
list from vehicle id to its prediction sequence. -/
abbrev Predictions := List (Nat × Prediction)

/-- The closed set of behavior-state tags `"CS" | "KL" | "LCL" | "LCR" | "PLCL" | "PLCR"`. -/
inductive VState where
  | CS
  | KL
  | LCL
  | LCR
  | PLCL
  | PLCR
deriving DecidableEq

/-- Direction argument `"L" | "R"` of `realize_lane_change` and
`realize_prep_lane_change`. -/
inductive Dir where
  | L
  | R
deriving DecidableEq

/-- The `Vehicle` object: the five planning fields set in `__init__` /
mutated by planning, plus the five integer configuration fields set by
`configure`.  The claims all quantify over configured vehicles, so the
configuration fields are carried as plain integers. -/
structure Vehicle where
  lane : Int
  s : Int
  v : Int
  a : Int
  state : VState
  max_acceleration : Int
  target_speed : Int
  lanes_available : Int
  goal_lane : Int
  goal_s : Int
deriving DecidableEq

/-- Class attribute `L = 1` (the vehicle length).  Note that the body of
`collides_with` refers to the bare name `L`, which does NOT resolve to this
class attribute in Python method scope. -/
def vehicleLengthL : Int := 1

/-- Class attribute `preferred_buffer = 6`. -/
def preferred_buffer : Int := 6

/-- Method `configure(road_data)`: installs the five configuration values. -/
def Vehicle.configure (self : Vehicle) (speed_limit num_lanes max_acceleration goal_s goal_lane : Int) : Vehicle :=
  { self with
    target_speed := speed_limit
    lanes_available := num_lanes
    max_acceleration := max_acceleration
    goal_lane := goal_lane
    goal_s := goal_s }

/-- Method `increment(dt=1)`: `s += v*dt; v += a*dt` (the new `s` uses the
old `v`). -/
def Vehicle.increment (self : Vehicle) (dt : Int) : Vehicle :=
  { self with s := self.s + self.v * dt, v := self.v + self.a * dt }

/-- Method `state_at(t)`: `s = self.s + self.v * t + self.a * t * t / 2`,
`v = self.v + self.a * t`; returns `(lane, s, v, a)`.  Python 2 `/` on
integers is floor division, hence `Int.fdiv`. -/
def Vehicle.state_at (self : Vehicle) (t : Int) : Int × Int × Int × Int :=
  let s := self.s + self.v * t + Int.fdiv (self.a * t * t) 2
  let v := self.v + self.a * t
  (self.lane, s, v, self.a)

/-- The projection `state_at` was specified to compute, written from the
spec's words over exact (rational) arithmetic:
`s' = s + v*t + a*t^2/2`, `v' = v + a*t`, lane and a unchanged. -/
def stateAtSpec (lane s v a t : ℚ) : ℚ × ℚ × ℚ × ℚ :=
  (lane, s + v * t + a * t * t / 2, v + a * t, a)

/-- Method `collides_with(other, at_time)`.  The source line is
`return l == l_o and abs(s-s_o) <= L`.  Python `and` short-circuits, so when
the projected lanes differ the call returns `False`; when they coincide the
right operand is evaluated and the bare name `L` raises `NameError` (the
class attribute is only reachable as `self.L`; no global `L` exists). -/
def Vehicle.collides_with (self other : Vehicle) (at_time : Int) : Except String Bool :=
  let r := self.state_at at_time
  let r_o := other.state_at at_time
  if r.1 = r_o.1 then .error "NameError: global name 'L' is not defined"
  else .ok false

/-- Loop body of `will_collide_with`: scan the given times in order,
returning `(True, t)` at the first collision. -/
def willCollideAux (self other : Vehicle) : List Int → Except String (Bool × Option Int)
  | [] => .ok (false, none)
  | t :: ts => do
    let c ← self.collides_with other t
    if c then .ok (true, some t) else willCollideAux self other ts

/-- Method `will_collide_with(other, timesteps)`:
`for t in range(timesteps+1): if self.collides_with(other, t): return True, t`
then `return False, None`. -/
def Vehicle.will_collide_with (self other : Vehicle) (timesteps : Int) : Except String (Bool × Option Int) :=
  willCollideAux self other ((List.range (timesteps + 1).toNat).map Int.ofNat)

/-- Indexing `p[0]`: IndexError on an empty list. -/
def firstEntry (p : Prediction) : Except String PredEntry :=
  match p with
  | [] => .error "IndexError: list index out of range"
  | e :: _ => .ok e

/-- Indexing `p[1]`: IndexError unless the list has at least two entries. -/
def secondEntry (p : Prediction) : Except String PredEntry :=
  match p with
  | _ :: e :: _ => .ok e
  | _ => .error "IndexError: list index out of range"

/-- Python `min(xs, key=k)` on a nonempty list: keeps the FIRST element among
those with minimal key (Python replaces the running best only on a strictly
smaller key). -/
def minByFirst {α β : Type} [LinearOrder β] (key : α → β) : α → List α → α
  | best, [] => best
  | best, x :: xs => if key x < key best then minByFirst key x xs else minByFirst key best xs

/-- Python `max(xs, key=k)` on a nonempty list: keeps the FIRST element among
those with maximal key. -/
def maxByFirst {α β : Type} [LinearOrder β] (key : α → β) : α → List α → α
  | best, [] => best
  | best, x :: xs => if key x > key best then maxByFirst key x xs else maxByFirst key best xs

/-- The comprehension in `_max_accel_for_lane`:
`[v for (v_id, v) in predictions.items() if v[0]['lane'] == lane and v[0]['s'] > s]`.
It evaluates `v[0]` for every entry (IndexError if any prediction list is
empty).  Each kept element is returned together with its head record `v[0]`,
so that the later `v[0]`/key lookups on kept elements are total. -/
def inFrontFilter (lane s : Int) : Predictions → Except String (List (PredEntry × Prediction))
  | [] => .ok []
  | (_, p) :: rest => do
    let e ← firstEntry p
    let tail ← inFrontFilter lane s rest
    if e.lane = lane ∧ e.s > s then .ok ((e, p) :: tail) else .ok tail

/-- Method `_max_accel_for_lane(predictions, lane, s)`:
`max_acc = min(max_acceleration, target_speed - v)`, then if some other
vehicle is currently ahead in `lane`, shrink it to the one-step room left by
the nearest such vehicle minus the preferred buffer. -/
def Vehicle.max_accel_for_lane (self : Vehicle) (predictions : Predictions) (lane s : Int) :
    Except String Int := do
  let delta_v_til_target := self.target_speed - self.v
  let max_acc := min self.max_acceleration delta_v_til_target
  let in_front ← inFrontFilter lane s predictions
  match in_front with
  | [] => .ok max_acc
  | f :: fs =>
    let leading := minByFirst (fun ep => ep.1.s - s) f fs
    let e1 ← secondEntry leading.2
    let next_pos := e1.s
    let my_next := s + self.v
    let separation_next := next_pos - my_next
    let available_room := separation_next - preferred_buffer
    .ok (min max_acc available_room)

/-- Method `realize_constant_speed`: `a = 0`. -/
def Vehicle.realize_constant_speed (self : Vehicle) : Vehicle :=
  { self with a := 0 }

/-- Method `realize_keep_lane`: `a = _max_accel_for_lane(predictions, lane, s)`. -/
def Vehicle.realize_keep_lane (self : Vehicle) (predictions : Predictions) :
    Except String Vehicle := do
  let acc ← self.max_accel_for_lane predictions self.lane self.s
  .ok { self with a := acc }

/-- Method `realize_lane_change(predictions, direction)`:
`delta = -1; if direction == "R": delta = 1`; shift the lane by `delta` and
recompute `a` for the new lane. -/
def Vehicle.realize_lane_change (self : Vehicle) (predictions : Predictions) (direction : Dir) :
    Except String Vehicle := do
  let delta : Int := if direction = Dir.R then 1 else -1
  let lane := self.lane + delta
  let acc ← self.max_accel_for_lane predictions lane self.s
  .ok { self with lane := lane, a := acc }

/-- The comprehension in `realize_prep_lane_change`:
`[(v_id, v) for (v_id, v) in predictions.items() if v[0]['lane'] == lane and v[0]['s'] <= self.s]`.
Evaluates `v[0]` for every entry; kept elements carry their head record. -/
def behindFilter (lane s : Int) : Predictions → Except String (List (Nat × PredEntry × Prediction))
  | [] => .ok []
  | (vid, p) :: rest => do
    let e ← firstEntry p
    let tail ← behindFilter lane s rest
    if e.lane = lane ∧ e.s ≤ s then .ok ((vid, e, p) :: tail) else .ok tail

/-- Method `realize_prep_lane_change(predictions, direction)`.  Note the
source sets `delta = -1` and then `if direction == "L": delta = 1` — the
OPPOSITE convention to `realize_lane_change`, so the "L" direction inspects
lane `self.lane + 1`.  The ego's own `lane` field is never written.  Also
note the `else` of `if delta_v != 0` is the branch that runs when
`delta_v == 0` (the adjacent comment in the source notwithstanding), and the
two clamp lines apply to both the `time == 0` and the generic sub-case. -/
def Vehicle.realize_prep_lane_change (self : Vehicle) (predictions : Predictions) (direction : Dir) :
    Except String Vehicle := do
  let delta : Int := if direction = Dir.L then 1 else -1
  let lane := self.lane + delta
  let ids_and_vehicles ← behindFilter lane self.s predictions
  match ids_and_vehicles with
  | [] => .ok self
  | f :: fs =>
    let nearest_behind := maxByFirst (fun t => t.2.1.s) f fs
    let nb := nearest_behind.2.2
    let e1 ← secondEntry nb
    let target_vel := e1.s - nearest_behind.2.1.s
    let delta_v := self.v - target_vel
    let delta_s := self.s - nearest_behind.2.1.s
    if delta_v ≠ 0 then
      let time := Int.fdiv (-2 * delta_s) delta_v
      let a := if time = 0 then self.a else Int.fdiv delta_v time
      let a := if a > self.max_acceleration then self.max_acceleration else a
      let a := if a < -self.max_acceleration then -self.max_acceleration else a
      .ok { self with a := a }
    else
      let min_acc := max (-self.max_acceleration) (-delta_s)
      .ok { self with a := min_acc }

/-- Method `realize_state(predictions)`: dispatch on the current state tag. -/
def Vehicle.realize_state (self : Vehicle) (predictions : Predictions) : Except String Vehicle :=
  match self.state with
  | .CS => .ok self.realize_constant_speed
  | .KL => self.realize_keep_lane predictions
  | .LCL => self.realize_lane_change predictions Dir.L
  | .LCR => self.realize_lane_change predictions Dir.R
  | .PLCL => self.realize_prep_lane_change predictions Dir.L
  | .PLCR => self.realize_prep_lane_change predictions Dir.R

/-- The `Snapshot` namedtuple `(lane, s, v, a, state)`. -/
structure Snapshot where
  lane : Int
  s : Int
  v : Int
  a : Int
  state : VState
deriving DecidableEq

/-- Method `snapshot()`. -/
def Vehicle.snapshot (self : Vehicle) : Snapshot :=
  ⟨self.lane, self.s, self.v, self.a, self.state⟩

/-- Method `restore_state_from_snapshot(snapshot)`: writes back the five
planning fields; configuration fields are untouched. -/
def Vehicle.restore_state_from_snapshot (self : Vehicle) (snap : Snapshot) : Vehicle :=
  { self with lane := snap.lane, s := snap.s, v := snap.v, a := snap.a, state := snap.state }

/-- The per-step prediction advance in `_trajectory_for_state`:
`for v_id, v in predictions.items(): v.pop(0)` (IndexError when a
prediction sequence is already empty). -/
def popHeads : Predictions → Except String Predictions
  | [] => .ok []
  | (vid, p) :: rest =>
    match p with
    | [] => .error "IndexError: pop from empty list"
    | _ :: tl => do
      let r ← popHeads rest
      .ok ((vid, tl) :: r)

/-- The `for i in range(horizon)` loop of `_trajectory_for_state`: each
iteration restores the vehicle from the snapshot, forces the candidate
state, realizes it, asserts the lane bound, advances one time unit, records
a snapshot, and pops the head of every prediction sequence.  Returns the
appended snapshots together with the vehicle and predictions values as the
loop leaves them. -/
def trajSteps (snap : Snapshot) (state : VState) :
    Nat → Vehicle → Predictions → Except String (List Snapshot × Vehicle × Predictions)
  | 0, self, preds => .ok ([], self, preds)
  | n + 1, self, preds => do
    let v1 := self.restore_state_from_snapshot snap
    let v2 := { v1 with state := state }
    let v3 ← v2.realize_state preds
    if (0 : Int) ≤ v3.lane ∧ v3.lane < v3.lanes_available then
      let v4 := v3.increment 1
      let preds2 ← popHeads preds
      let r ← trajSteps snap state n v4 preds2
      .ok (v4.snapshot :: r.1, r.2)
    else
      .error "AssertionError: lane out of range"

/-- Method `_trajectory_for_state(state, predictions, horizon=5)`: snapshot,
speculate under `state` for `horizon` steps, then restore the snapshot.  The
returned triple carries the trajectory, the vehicle after the final restore,
and the final value of the (mutated) predictions argument. -/
def Vehicle.trajectory_for_state (self : Vehicle) (state : VState) (predictions : Predictions)
    (horizon : Nat) : Except String (List Snapshot × Vehicle × Predictions) := do
  let snap := self.snapshot
  let v1 := { self with state := state }
  let r ← trajSteps snap state horizon v1 predictions
  .ok (snap :: r.1, (r.2.1).restore_state_from_snapshot snap, r.2.2)

/-- Modelled from the spec: `calculate_cost` lives in `cost_functions.py`,
which is not among the sources; the spec fixes only its interface — a pure,
deterministic, lower-is-better, total-ordered function
`cost(vehicle, trajectory, predictions) → real number`.  The development is
parametric in any such function, with rationals standing in for its real
scores. -/
abbrev CostFn := Vehicle → List Snapshot → Predictions → ℚ

/-- The candidate enumeration of `_get_next_state`:
`states = ["KL", "LCL", "LCR"]`, then `states.remove("LCL")` when
`lane == 0` and `states.remove("LCR")` when `lane == lanes_available - 1`. -/
def candidateStates (self : Vehicle) : List VState :=
  let states := [VState.KL, VState.LCL, VState.LCR]
  let states := if self.lane = 0 then states.erase VState.LCL else states
  let states := if self.lane = self.lanes_available - 1 then states.erase VState.LCR else states
  states

/-- The candidate-scoring loop of `_get_next_state`.  Each iteration takes
`predictions_copy = deepcopy(predictions)` — an independent value of the
caller's predictions — hands the copy to the trajectory simulator (which
mutates it; that mutated value is dropped when the iteration ends), and
scores the trajectory with the ORIGINAL `predictions`.  The vehicle object
and the original predictions value are threaded through the loop. -/
def costsLoop (cost : CostFn) :
    List VState → Vehicle → Predictions → Except String (List (VState × ℚ) × Vehicle × Predictions)
  | [], self, preds => .ok ([], self, preds)
  | st :: rest, self, preds => do
    let predictions_copy := preds
    let r ← self.trajectory_for_state st predictions_copy 5
    let c := cost r.2.1 r.1 preds
    let r2 ← costsLoop cost rest r.2.1 preds
    .ok ((st, c) :: r2.1, r2.2)

/-- Method `_get_next_state(predictions)`: enumerate legal candidates, score
each, and return `min(costs, key=lambda s: s['cost'])['state']` — the first
candidate in enumeration order attaining the minimal cost. -/
def Vehicle.get_next_state (self : Vehicle) (cost : CostFn) (predictions : Predictions) :
    Except String (VState × Vehicle × Predictions) := do
  let states := candidateStates self
  let r ← costsLoop cost states self predictions
  match r.1 with
  | [] => .error "ValueError: min() arg is an empty sequence"
  | c :: cs => .ok ((minByFirst (fun p => p.2) c cs).1, r.2)

/-- Method `update_state(predictions)`: commit `self.state` to the selected
candidate.  The second component is the final value of the caller's
predictions object. -/
def Vehicle.update_state (self : Vehicle) (cost : CostFn) (predictions : Predictions) :
    Except String (Vehicle × Predictions) := do
  let r ← self.get_next_state cost predictions
  .ok ({ r.2.1 with state := r.1 }, r.2.2)

/-- Method `generate_predictions(horizon=10)`: the `{s, lane}` records of
`state_at(i)` for `i = 0 .. horizon-1`. -/
def Vehicle.generate_predictions (self : Vehicle) (horizon : Nat) : Prediction :=
  (List.range horizon).map (fun i =>
    let r := self.state_at (Int.ofNat i)
    { s := r.2.1, lane := r.1 })

theorem bind_ok {α β : Type} (a : α) (f : α → Except String β) :
    (Except.ok a >>= f) = f a := rfl

theorem bind_err {α β : Type} (e : String) (f : α → Except String β) :
    ((Except.error e : Except String α) >>= f) = Except.error e := rfl

theorem state_at_lane (v : Vehicle) (t : Int) : (v.state_at t).1 = v.lane := rfl

/-- C8 (counterexample): the claim asserts `state_at` performs the division
by 2 exactly for ALL integer inputs.  With `s = 0, v = 0, a = 1, t = 1` the
exact position is `1/2`, but Python 2 floor division gives `1 / 2 = 0`. -/
theorem state_at_exact_cex :
    ¬ (((Vehicle.state_at ⟨0, 0, 0, 1, .CS, 0, 0, 0, 0, 0⟩ 1).2.1 : ℚ)
        = (stateAtSpec 0 0 0 1 1).2.1) := by
  have h : Int.fdiv 1 2 = 0 := rfl
  norm_num [Vehicle.state_at, stateAtSpec, h]

/-- C8 (amended): `state_at(t)` returns
`(lane, s + v*t + (a*t*t) fdiv 2, v + a*t, a)` with Python-2 floor division,
and whenever `a*t*t` is even this position agrees with the exact kinematic
value `s + v*t + a*t^2/2`; lane and `a` are unchanged and the call is pure.
In particular both concrete examples of the claim hold. -/
theorem state_at_floor_div (v : Vehicle) (t : Int) (h : 2 ∣ v.a * t * t) :
    v.state_at t = (v.lane, v.s + v.v * t + Int.fdiv (v.a * t * t) 2, v.v + v.a * t, v.a)
    ∧ (((v.s + v.v * t + Int.fdiv (v.a * t * t) 2 : Int) : ℚ)
        = (stateAtSpec (v.lane : ℚ) (v.s : ℚ) (v.v : ℚ) (v.a : ℚ) (t : ℚ)).2.1) := by
  constructor
  · rfl
  · obtain ⟨k, hk⟩ := h
    have h2 : Int.fdiv (v.a * t * t) 2 = k := by
      rw [hk]
      exact Int.mul_fdiv_cancel_left k (by norm_num)
    have hq : (v.a : ℚ) * t * t = 2 * k := by exact_mod_cast hk
    unfold stateAtSpec
    rw [h2]
    push_cast
    linarith [hq]

/-- Witness for C8's amended theorem: the claim's own second example,
`s = 0, v = 10, a = 2, t = 3`, yields `s' = 39`, `v' = 16`. -/
theorem state_at_floor_div_witness :
    (2 ∣ (⟨0, 0, 10, 2, .CS, 0, 0, 0, 0, 0⟩ : Vehicle).a * 3 * 3)
    ∧ ((⟨0, 0, 10, 2, .CS, 0, 0, 0, 0, 0⟩ : Vehicle).state_at 3
          = ((⟨0, 0, 10, 2, .CS, 0, 0, 0, 0, 0⟩ : Vehicle).lane,
             (⟨0, 0, 10, 2, .CS, 0, 0, 0, 0, 0⟩ : Vehicle).s + 10 * 3 + Int.fdiv (2 * 3 * 3) 2,
             10 + 2 * 3, 2)
        ∧ (((0 + 10 * 3 + Int.fdiv (2 * 3 * 3) 2 : Int) : ℚ)
            = (stateAtSpec 0 0 10 2 3).2.1)) :=
  ⟨by decide, state_at_floor_div ⟨0, 0, 10, 2, .CS, 0, 0, 0, 0, 0⟩ 3 (by decide)⟩

/-- C9 (code divergence): `collides_with` on two vehicles in the same lane
never returns the specified boolean — the threshold is written as the bare
name `L` (the class attribute is only reachable as `self.L`), so the call
raises `NameError` precisely where the claimed `True` result is due. -/
theorem collides_with_raises :
    Vehicle.collides_with ⟨0, 0, 0, 0, .CS, 0, 0, 0, 0, 0⟩ ⟨0, 0, 0, 0, .CS, 0, 0, 0, 0, 0⟩ 0
      = .error "NameError: global name 'L' is not defined" := rfl

theorem collides_with_ite (A B : Vehicle) (t : Int) :
    A.collides_with B t
      = if A.lane = B.lane then .error "NameError: global name 'L' is not defined"
        else .ok false := rfl

theorem willCollideAux_of_ne (A B : Vehicle) (h : A.lane ≠ B.lane) :
    ∀ l : List Int, willCollideAux A B l = .ok (false, none) := by
  intro l
  induction l with
  | nil => rfl
  | cons t ts ih =>
    simp only [willCollideAux, collides_with_ite, if_neg h, bind_ok]
    exact ih

/-- C10 (counterexample): the claim says every `collides_with` call raises a
name-resolution error; but `l == l_o and abs(s-s_o) <= L` short-circuits, so
with the two vehicles in different lanes the unbound `L` is never evaluated
and the call returns `False` — and `will_collide_with` then returns
`(False, None)` instead of raising. -/
theorem collides_with_no_raise_cex :
    Vehicle.collides_with ⟨0, 0, 0, 0, .CS, 0, 0, 0, 0, 0⟩ ⟨1, 0, 0, 0, .CS, 0, 0, 0, 0, 0⟩ 0
      = .ok false
    ∧ Vehicle.will_collide_with ⟨0, 0, 0, 0, .CS, 0, 0, 0, 0, 0⟩ ⟨1, 0, 0, 0, .CS, 0, 0, 0, 0, 0⟩ 3
      = .ok (false, none) := ⟨rfl, rfl⟩

/-- C10 (amended): `collides_with(A, B, t)` raises `NameError` exactly when
the two projected lanes coincide (which, since `state_at` never changes the
lane, is exactly when `A.lane == B.lane`); otherwise Python's short-circuit
`and` returns `False` before the unbound `L` is touched.  Consequently for
`timesteps >= 0`, `will_collide_with` raises iff the lanes coincide and
returns `(False, None)` otherwise. -/
theorem collides_with_shortcircuit (A B : Vehicle) (t timesteps : Int) (h : 0 ≤ timesteps) :
    (A.lane = B.lane →
        A.collides_with B t = .error "NameError: global name 'L' is not defined"
        ∧ A.will_collide_with B timesteps = .error "NameError: global name 'L' is not defined")
    ∧ (A.lane ≠ B.lane →
        A.collides_with B t = .ok false
        ∧ A.will_collide_with B timesteps = .ok (false, none)) := by
  have hn : (timesteps + 1).toNat = timesteps.toNat + 1 := by omega
  constructor
  · intro he
    refine ⟨by rw [collides_with_ite, if_pos he], ?_⟩
    unfold Vehicle.will_collide_with
    rw [hn, List.range_succ_eq_map]
    simp only [List.map_cons, willCollideAux, collides_with_ite, if_pos he, bind_err]
  · intro hne
    refine ⟨by rw [collides_with_ite, if_neg hne], ?_⟩
    unfold Vehicle.will_collide_with
    exact willCollideAux_of_ne A B hne _

/-- Witness for C10's amended theorem at two same-lane vehicles and at
`timesteps = 2`. -/
theorem collides_with_shortcircuit_witness :
    (0 : Int) ≤ 2
    ∧ (((⟨0, 0, 0, 0, .CS, 0, 0, 0, 0, 0⟩ : Vehicle).lane
          = (⟨0, 5, 0, 0, .CS, 0, 0, 0, 0, 0⟩ : Vehicle).lane →
        Vehicle.collides_with ⟨0, 0, 0, 0, .CS, 0, 0, 0, 0, 0⟩ ⟨0, 5, 0, 0, .CS, 0, 0, 0, 0, 0⟩ 1
          = .error "NameError: global name 'L' is not defined"
        ∧ Vehicle.will_collide_with ⟨0, 0, 0, 0, .CS, 0, 0, 0, 0, 0⟩ ⟨0, 5, 0, 0, .CS, 0, 0, 0, 0, 0⟩ 2
          = .error "NameError: global name 'L' is not defined")
      ∧ ((⟨0, 0, 0, 0, .CS, 0, 0, 0, 0, 0⟩ : Vehicle).lane
          ≠ (⟨0, 5, 0, 0, .CS, 0, 0, 0, 0, 0⟩ : Vehicle).lane →
        Vehicle.collides_with ⟨0, 0, 0, 0, .CS, 0, 0, 0, 0, 0⟩ ⟨0, 5, 0, 0, .CS, 0, 0, 0, 0, 0⟩ 1
          = .ok false
        ∧ Vehicle.will_collide_with ⟨0, 0, 0, 0, .CS, 0, 0, 0, 0, 0⟩ ⟨0, 5, 0, 0, .CS, 0, 0, 0, 0, 0⟩ 2
          = .ok (false, none))) :=
  ⟨by decide,
   collides_with_shortcircuit ⟨0, 0, 0, 0, .CS, 0, 0, 0, 0, 0⟩ ⟨0, 5, 0, 0, .CS, 0, 0, 0, 0, 0⟩ 1 2
     (by decide)⟩

theorem max_accel_for_lane_err (v : Vehicle) (preds : Predictions) (lane s : Int) (e : String)
    (h : inFrontFilter lane s preds = .error e) :
    v.max_accel_for_lane preds lane s = .error e := by
  unfold Vehicle.max_accel_for_lane
  rw [h]
  rfl

theorem max_accel_for_lane_nofront (v : Vehicle) (preds : Predictions) (lane s : Int)
    (h : inFrontFilter lane s preds = .ok []) :
    v.max_accel_for_lane preds lane s = .ok (min v.max_acceleration (v.target_speed - v.v)) := by
  unfold Vehicle.max_accel_for_lane
  rw [h]
  rfl

theorem max_accel_for_lane_front (v : Vehicle) (preds : Predictions) (lane s : Int)
    (f : PredEntry × Prediction) (fs : List (PredEntry × Prediction))
    (h : inFrontFilter lane s preds = .ok (f :: fs)) :
    v.max_accel_for_lane preds lane s
      = secondEntry (minByFirst (fun ep => ep.1.s - s) f fs).2 >>= fun e1 =>
          .ok (min (min v.max_acceleration (v.target_speed - v.v))
                (e1.s - (s + v.v) - preferred_buffer)) := by
  unfold Vehicle.max_accel_for_lane
  rw [h]
  rfl

theorem max_accel_for_lane_le (v : Vehicle) (preds : Predictions) (lane s m : Int)
    (h : v.max_accel_for_lane preds lane s = .ok m) : m ≤ v.max_acceleration := by
  cases hf : inFrontFilter lane s preds with
  | error e =>
    rw [max_accel_for_lane_err v preds lane s e hf] at h
    exact Except.noConfusion h
  | ok l =>
    cases l with
    | nil =>
      rw [max_accel_for_lane_nofront v preds lane s hf] at h
      injection h with h
      exact h ▸ min_le_left _ _
    | cons f fs =>
      rw [max_accel_for_lane_front v preds lane s f fs hf] at h
      cases hs : secondEntry (minByFirst (fun ep => ep.1.s - s) f fs).2 with
      | error e => rw [hs, bind_err] at h; exact Except.noConfusion h
      | ok e1 =>
        rw [hs, bind_ok] at h
        injection h with h
        exact h ▸ le_trans (min_le_left _ _) (min_le_left _ _)

theorem realize_keep_lane_eq (v : Vehicle) (preds : Predictions) :
    v.realize_keep_lane preds
      = v.max_accel_for_lane preds v.lane v.s >>= fun acc => .ok { v with a := acc } := rfl

theorem realize_lane_change_eq (v : Vehicle) (preds : Predictions) (d : Dir) :
    v.realize_lane_change preds d
      = v.max_accel_for_lane preds (v.lane + if d = Dir.R then 1 else -1) v.s >>= fun acc =>
          .ok { v with lane := v.lane + (if d = Dir.R then 1 else -1), a := acc } := rfl

theorem realize_keep_lane_ok (v : Vehicle) (preds : Predictions) (v' : Vehicle)
    (h : v.realize_keep_lane preds = .ok v') :
    ∃ m, v.max_accel_for_lane preds v.lane v.s = .ok m ∧ v' = { v with a := m } := by
  rw [realize_keep_lane_eq] at h
  cases hm : v.max_accel_for_lane preds v.lane v.s with
  | error e => rw [hm, bind_err] at h; exact Except.noConfusion h
  | ok m =>
    rw [hm, bind_ok] at h
    injection h with h
    exact ⟨m, rfl, h.symm⟩

theorem realize_lane_change_ok (v : Vehicle) (preds : Predictions) (d : Dir) (v' : Vehicle)
    (h : v.realize_lane_change preds d = .ok v') :
    ∃ m, v.max_accel_for_lane preds (v.lane + if d = Dir.R then 1 else -1) v.s = .ok m
      ∧ v' = { v with lane := v.lane + (if d = Dir.R then 1 else -1), a := m } := by
  rw [realize_lane_change_eq] at h
  cases hm : v.max_accel_for_lane preds (v.lane + if d = Dir.R then 1 else -1) v.s with
  | error e => rw [hm, bind_err] at h; exact Except.noConfusion h
  | ok m =>
    rw [hm, bind_ok] at h
    injection h with h
    exact ⟨m, rfl, h.symm⟩

/-- C1 (counterexample): the claim asserts `|a| <= max_acceleration` after
every realization.  Take a configured vehicle with `max_acceleration = 1`,
`target_speed = 0` and `v = 10` in the KL state with no other vehicle: the
realized acceleration is `min(1, 0 - 10) = -10`, whose magnitude exceeds the
configured bound — `_max_accel_for_lane` has no lower clamp. -/
theorem accel_bound_cex :
    Vehicle.realize_state ⟨0, 0, 10, 0, .KL, 1, 0, 1, 0, 0⟩ []
      = .ok ⟨0, 0, 10, -10, .KL, 1, 0, 1, 0, 0⟩
    ∧ ¬ (|(⟨0, 0, 10, -10, .KL, 1, 0, 1, 0, 0⟩ : Vehicle).a|
          ≤ (⟨0, 0, 10, 0, .KL, 1, 0, 1, 0, 0⟩ : Vehicle).max_acceleration) :=
  ⟨rfl, by decide⟩

/-- C1 (amended): after realizing KL, LCL or LCR the acceleration is bounded
ABOVE by `max_acceleration` (there is no lower bound: braking may exceed the
limit in magnitude), and for KL with no other vehicle currently ahead in the
ego's lane the realized acceleration is exactly
`min(max_acceleration, target_speed - v)`. -/
theorem accel_upper_bound (v : Vehicle) (preds : Predictions) (v' : Vehicle)
    (hst : v.state = .KL ∨ v.state = .LCL ∨ v.state = .LCR)
    (hok : v.realize_state preds = .ok v') :
    v'.a ≤ v.max_acceleration
    ∧ (v.state = .KL → inFrontFilter v.lane v.s preds = .ok [] →
        v'.a = min v.max_acceleration (v.target_speed - v.v)) := by
  rcases hst with h | h | h
  · simp only [Vehicle.realize_state, h] at hok
    obtain ⟨m, hm, rfl⟩ := realize_keep_lane_ok v preds v' hok
    refine ⟨max_accel_for_lane_le v preds v.lane v.s m hm, fun _ hemp => ?_⟩
    rw [max_accel_for_lane_nofront v preds v.lane v.s hemp] at hm
    injection hm with hm
    exact hm.symm
  · simp only [Vehicle.realize_state, h] at hok
    obtain ⟨m, hm, rfl⟩ := realize_lane_change_ok v preds Dir.L v' hok
    refine ⟨max_accel_for_lane_le v preds _ v.s m hm, fun hkl => ?_⟩
    rw [h] at hkl
    exact absurd hkl (by simp)
  · simp only [Vehicle.realize_state, h] at hok
    obtain ⟨m, hm, rfl⟩ := realize_lane_change_ok v preds Dir.R v' hok
    refine ⟨max_accel_for_lane_le v preds _ v.s m hm, fun hkl => ?_⟩
    rw [h] at hkl
    exact absurd hkl (by simp)

/-- Witness for C1's amended theorem: KL at `v = 0`, `target_speed = 5`,
`max_acceleration = 1`, no other vehicles; the realized acceleration is
`min(1, 5) = 1`. -/
theorem accel_upper_bound_witness :
    ((⟨0, 0, 0, 0, .KL, 1, 5, 1, 0, 0⟩ : Vehicle).state = .KL
      ∨ (⟨0, 0, 0, 0, .KL, 1, 5, 1, 0, 0⟩ : Vehicle).state = .LCL
      ∨ (⟨0, 0, 0, 0, .KL, 1, 5, 1, 0, 0⟩ : Vehicle).state = .LCR)
    ∧ Vehicle.realize_state ⟨0, 0, 0, 0, .KL, 1, 5, 1, 0, 0⟩ []
        = .ok ⟨0, 0, 0, 1, .KL, 1, 5, 1, 0, 0⟩
    ∧ ((⟨0, 0, 0, 1, .KL, 1, 5, 1, 0, 0⟩ : Vehicle).a
          ≤ (⟨0, 0, 0, 0, .KL, 1, 5, 1, 0, 0⟩ : Vehicle).max_acceleration
      ∧ ((⟨0, 0, 0, 0, .KL, 1, 5, 1, 0, 0⟩ : Vehicle).state = .KL →
          inFrontFilter (⟨0, 0, 0, 0, .KL, 1, 5, 1, 0, 0⟩ : Vehicle).lane
              (⟨0, 0, 0, 0, .KL, 1, 5, 1, 0, 0⟩ : Vehicle).s [] = .ok [] →
          (⟨0, 0, 0, 1, .KL, 1, 5, 1, 0, 0⟩ : Vehicle).a
            = min (⟨0, 0, 0, 0, .KL, 1, 5, 1, 0, 0⟩ : Vehicle).max_acceleration
                ((⟨0, 0, 0, 0, .KL, 1, 5, 1, 0, 0⟩ : Vehicle).target_speed
                  - (⟨0, 0, 0, 0, .KL, 1, 5, 1, 0, 0⟩ : Vehicle).v))) :=
  ⟨Or.inl rfl, rfl, accel_upper_bound ⟨0, 0, 0, 0, .KL, 1, 5, 1, 0, 0⟩ [] _ (Or.inl rfl) rfl⟩

/-- C3 (code divergence): realizing PLCL inspects the RIGHT adjacent lane.
The ego is at lane 1; the only other vehicle sits in lane 2 (the right
neighbour) and there is no vehicle at all in lane 0 (the left neighbour,
second conjunct), yet PLCL adopts an acceleration derived from the lane-2
vehicle (`a` becomes `max(-10, -(10-4)) = -6`): `realize_prep_lane_change`
sets `delta = 1` when `direction == "L"`, the opposite of
`realize_lane_change`.  The ego's own lane is indeed unchanged. -/
theorem plc_direction_eval :
    Vehicle.realize_state ⟨1, 10, 5, 0, .PLCL, 10, 20, 3, 0, 0⟩ [(1, [⟨4, 2⟩, ⟨9, 2⟩])]
      = .ok ⟨1, 10, 5, -6, .PLCL, 10, 20, 3, 0, 0⟩
    ∧ behindFilter (1 - 1) 10 [(1, [⟨4, 2⟩, ⟨9, 2⟩])] = .ok [] := ⟨rfl, rfl⟩

/-- C4 (counterexample): with a nearest-behind vehicle whose implied
velocity equals the ego's (`delta_v == 0`), the acceleration is NOT held:
the ego enters with `a = 100` and leaves with `a = -6`.  The `else` of
`if delta_v != 0` is the `delta_v == 0` branch, and it assigns
`a = max(-max_acceleration, -delta_s)`. -/
theorem plc_delta_v_zero_cex :
    Vehicle.realize_state ⟨0, 10, 5, 100, .PLCL, 10, 20, 3, 0, 0⟩ [(2, [⟨4, 1⟩, ⟨9, 1⟩])]
      = .ok ⟨0, 10, 5, -6, .PLCL, 10, 20, 3, 0, 0⟩
    ∧ ((-6 : Int) ≠ (⟨0, 10, 5, 100, .PLCL, 10, 20, 3, 0, 0⟩ : Vehicle).a) := ⟨rfl, by decide⟩

/-- C4 (amended): when a nearest-behind vehicle exists in the inspected
adjacent lane and `delta_v == 0`, realization sets the ego's acceleration to
`max(-max_acceleration, -delta_s)` (it is NOT held at its current value;
holding — up to the clamps — happens only in the `delta_v != 0`,
`time == 0` sub-case). -/
theorem plc_delta_v_zero_amended (v : Vehicle) (preds : Predictions) (d : Dir)
    (vid : Nat) (e : PredEntry) (p : Prediction) (e1 : PredEntry)
    (f : Nat × PredEntry × Prediction) (fs : List (Nat × PredEntry × Prediction))
    (hflt : behindFilter (v.lane + if d = Dir.L then 1 else -1) v.s preds = .ok (f :: fs))
    (hnb : maxByFirst (fun t => t.2.1.s) f fs = (vid, e, p))
    (h2 : secondEntry p = .ok e1)
    (hdv : v.v - (e1.s - e.s) = 0) :
    v.realize_prep_lane_change preds d = .ok { v with a := max (-v.max_acceleration) (-(v.s - e.s)) } := by
  simp only [Vehicle.realize_prep_lane_change]
  rw [hflt]
  simp only [bind_ok]
  simp only [hnb, h2, bind_ok]
  rw [hdv]
  simp

/-- Witness for C4's amended theorem: a PLCR instance with `delta_v = 0`
(`ego.v = 3`, nearest-behind implied velocity `5 - 2 = 3`); the realized
acceleration is `max(-4, -6) = -4`. -/
theorem plc_delta_v_zero_amended_witness :
    behindFilter ((⟨2, 8, 3, 7, .PLCR, 4, 9, 3, 0, 0⟩ : Vehicle).lane
        + if Dir.R = Dir.L then 1 else -1) (⟨2, 8, 3, 7, .PLCR, 4, 9, 3, 0, 0⟩ : Vehicle).s
        [(5, [⟨2, 1⟩, ⟨5, 1⟩])]
      = .ok [(5, ⟨2, 1⟩, [⟨2, 1⟩, ⟨5, 1⟩])]
    ∧ maxByFirst (fun t => t.2.1.s) (5, (⟨2, 1⟩ : PredEntry), ([⟨2, 1⟩, ⟨5, 1⟩] : Prediction)) []
      = (5, ⟨2, 1⟩, [⟨2, 1⟩, ⟨5, 1⟩])
    ∧ secondEntry [⟨2, 1⟩, ⟨5, 1⟩] = .ok ⟨5, 1⟩
    ∧ (⟨2, 8, 3, 7, .PLCR, 4, 9, 3, 0, 0⟩ : Vehicle).v - ((5 : Int) - 2) = 0
    ∧ Vehicle.realize_prep_lane_change ⟨2, 8, 3, 7, .PLCR, 4, 9, 3, 0, 0⟩
        [(5, [⟨2, 1⟩, ⟨5, 1⟩])] Dir.R
      = .ok { (⟨2, 8, 3, 7, .PLCR, 4, 9, 3, 0, 0⟩ : Vehicle) with
              a := max (-(⟨2, 8, 3, 7, .PLCR, 4, 9, 3, 0, 0⟩ : Vehicle).max_acceleration)
                     (-((⟨2, 8, 3, 7, .PLCR, 4, 9, 3, 0, 0⟩ : Vehicle).s - 2)) } :=
  ⟨rfl, rfl, rfl, by decide,
   plc_delta_v_zero_amended ⟨2, 8, 3, 7, .PLCR, 4, 9, 3, 0, 0⟩ [(5, [⟨2, 1⟩, ⟨5, 1⟩])] Dir.R
     5 ⟨2, 1⟩ [⟨2, 1⟩, ⟨5, 1⟩] ⟨5, 1⟩ (5, ⟨2, 1⟩, [⟨2, 1⟩, ⟨5, 1⟩]) [] rfl rfl rfl (by decide)⟩

/-- C2 (confirmed): whenever `_trajectory_for_state` returns, the vehicle it
leaves behind agrees with the vehicle before the call on `lane`, `s`, `v`,
`a` and `state` — the final `restore_state_from_snapshot` reinstates the
snapshot taken on entry, for every candidate state, predictions value and
horizon. -/
theorem trajectory_rollback (v : Vehicle) (st : VState) (preds : Predictions) (horizon : Nat)
    (tr : List Snapshot) (v' : Vehicle) (p' : Predictions)
    (hok : v.trajectory_for_state st preds horizon = .ok (tr, v', p')) :
    v'.lane = v.lane ∧ v'.s = v.s ∧ v'.v = v.v ∧ v'.a = v.a ∧ v'.state = v.state := by
  cases hts : trajSteps v.snapshot st horizon { v with state := st } preds with
  | error e =>
    simp only [Vehicle.trajectory_for_state, hts, bind_err] at hok
    exact Except.noConfusion hok
  | ok r =>
    simp only [Vehicle.trajectory_for_state, hts, bind_ok] at hok
    injection hok with hok
    injection hok with h1 hrest
    injection hrest with h2 h3
    subst h2
    exact ⟨rfl, rfl, rfl, rfl, rfl⟩

/-- Witness for C2 at a concrete one-step rollout. -/
theorem trajectory_rollback_witness :
    Vehicle.trajectory_for_state ⟨0, 0, 0, 0, .CS, 1, 0, 1, 0, 0⟩ .KL [] 1
      = .ok ([⟨0, 0, 0, 0, .CS⟩, ⟨0, 0, 0, 0, .KL⟩], ⟨0, 0, 0, 0, .CS, 1, 0, 1, 0, 0⟩, [])
    ∧ ((⟨0, 0, 0, 0, .CS, 1, 0, 1, 0, 0⟩ : Vehicle).lane
          = (⟨0, 0, 0, 0, .CS, 1, 0, 1, 0, 0⟩ : Vehicle).lane
      ∧ (⟨0, 0, 0, 0, .CS, 1, 0, 1, 0, 0⟩ : Vehicle).s
          = (⟨0, 0, 0, 0, .CS, 1, 0, 1, 0, 0⟩ : Vehicle).s
      ∧ (⟨0, 0, 0, 0, .CS, 1, 0, 1, 0, 0⟩ : Vehicle).v
          = (⟨0, 0, 0, 0, .CS, 1, 0, 1, 0, 0⟩ : Vehicle).v
      ∧ (⟨0, 0, 0, 0, .CS, 1, 0, 1, 0, 0⟩ : Vehicle).a
          = (⟨0, 0, 0, 0, .CS, 1, 0, 1, 0, 0⟩ : Vehicle).a
      ∧ (⟨0, 0, 0, 0, .CS, 1, 0, 1, 0, 0⟩ : Vehicle).state
          = (⟨0, 0, 0, 0, .CS, 1, 0, 1, 0, 0⟩ : Vehicle).state) :=
  ⟨rfl, trajectory_rollback ⟨0, 0, 0, 0, .CS, 1, 0, 1, 0, 0⟩ .KL [] 1 _ _ _ rfl⟩

theorem costsLoop_preds (cost : CostFn) (sts : List VState) :
    ∀ (v : Vehicle) (preds : Predictions) (r : List (VState × ℚ) × Vehicle × Predictions),
      costsLoop cost sts v preds = .ok r → r.2.2 = preds := by
  induction sts with
  | nil =>
    intro v preds r h
    injection h with h
    rw [← h]
  | cons st rest ih =>
    intro v preds r h
    simp only [costsLoop] at h
    cases ht : Vehicle.trajectory_for_state v st preds 5 with
    | error e => rw [ht, bind_err] at h; exact Except.noConfusion h
    | ok tr =>
      rw [ht, bind_ok] at h
      cases hr : costsLoop cost rest tr.2.1 preds with
      | error e => rw [hr, bind_err] at h; exact Except.noConfusion h
      | ok r2 =>
        rw [hr, bind_ok] at h
        injection h with h
        rw [← h]
        exact ih tr.2.1 preds r2 hr

theorem get_next_state_preds (cost : CostFn) (v : Vehicle) (preds : Predictions)
    (st : VState) (vr : Vehicle) (pr : Predictions)
    (h : v.get_next_state cost preds = .ok (st, vr, pr)) : pr = preds := by
  cases hc : costsLoop cost (candidateStates v) v preds with
  | error e =>
    simp only [Vehicle.get_next_state, hc, bind_err] at h
    exact Except.noConfusion h
  | ok r =>
    obtain ⟨cs, vm, pm⟩ := r
    have hpm : pm = preds := costsLoop_preds cost (candidateStates v) v preds (cs, vm, pm) hc
    simp only [Vehicle.get_next_state, hc, bind_ok] at h
    cases cs with
    | nil => exact Except.noConfusion h
    | cons c cst =>
      injection h with h
      injection h with ha hrest
      injection hrest with hb hc2
      rw [← hc2]
      exact hpm

/-- C5 (confirmed): the predictions object handed to the state selector is
unchanged after the call — each candidate rollout mutates only its own deep
copy (`predictions_copy`), and both the cost call and the remaining
candidates see the caller's original structure. -/
theorem predictions_isolated (cost : CostFn) (v : Vehicle) (preds : Predictions)
    (v' : Vehicle) (p' : Predictions)
    (hok : v.update_state cost preds = .ok (v', p')) : p' = preds := by
  cases hg : v.get_next_state cost preds with
  | error e =>
    simp only [Vehicle.update_state, hg, bind_err] at hok
    exact Except.noConfusion hok
  | ok g =>
    obtain ⟨st, vr, pr⟩ := g
    simp only [Vehicle.update_state, hg, bind_ok] at hok
    injection hok with hok
    injection hok with h1 h2
    rw [← h2]
    exact get_next_state_preds cost v preds st vr pr hg

theorem minByFirst_mem {α β : Type} [LinearOrder β] (key : α → β) :
    ∀ (b : α) (l : List α), minByFirst key b l ∈ b :: l := by
  intro b l
  induction l generalizing b with
  | nil => simp [minByFirst]
  | cons x xs ih =>
    simp only [minByFirst]
    split
    · exact List.mem_cons_of_mem _ (ih x)
    · rcases List.mem_cons.mp (ih b) with h | h
      · rw [h]
        exact List.mem_cons_self _ _
      · exact List.mem_cons_of_mem _ (List.mem_cons_of_mem _ h)

theorem minByFirst_le {α β : Type} [LinearOrder β] (key : α → β) :
    ∀ (b : α) (l : List α) (x : α), x ∈ b :: l → key (minByFirst key b l) ≤ key x := by
  intro b l
  induction l generalizing b with
  | nil =>
    intro x hx
    have hxb : x = b := by simpa using hx
    rw [hxb]
    simp [minByFirst]
  | cons y ys ih =>
    intro x hx
    by_cases hcmp : key y < key b
    · simp only [minByFirst]
      rw [if_pos hcmp]
      rcases List.mem_cons.mp hx with h | h'
      · exact le_trans (le_trans (ih y y (List.mem_cons_self _ _)) (le_of_lt hcmp))
          (le_of_eq (congrArg key h).symm)
      · exact ih y x h'
    · simp only [minByFirst]
      rw [if_neg hcmp]
      rcases List.mem_cons.mp hx with h | h'
      · exact le_trans (ih b b (List.mem_cons_self _ _)) (le_of_eq (congrArg key h).symm)
      · rcases List.mem_cons.mp h' with h2 | h3
        · exact le_trans (le_trans (ih b b (List.mem_cons_self _ _)) (le_of_not_lt hcmp))
            (le_of_eq (congrArg key h2).symm)
        · exact ih b x (List.mem_cons_of_mem _ h3)

theorem minByFirst_eq_or_lt {α β : Type} [LinearOrder β] (key : α → β) :
    ∀ (b : α) (l : List α), minByFirst key b l = b ∨ key (minByFirst key b l) < key b := by
  intro b l
  induction l generalizing b with
  | nil => exact Or.inl rfl
  | cons y ys ih =>
    simp only [minByFirst]
    split
    case isTrue h =>
      rcases ih y with heq | hlt
      · rw [heq]
        exact Or.inr h
      · exact Or.inr (lt_trans hlt h)
    case isFalse h => exact ih b

theorem minByFirst_find {α β : Type} [LinearOrder β] (key : α → β) :
    ∀ (b : α) (l : List α),
      (b :: l).find? (fun x => key x == key (minByFirst key b l)) = some (minByFirst key b l) := by
  intro b l
  induction l generalizing b with
  | nil =>
    simp only [minByFirst]
    have hpb : (key b == key b) = true := by simp
    simp only [List.find?_cons, hpb]
  | cons y ys ih =>
    simp only [minByFirst]
    split
    case isTrue h =>
      have hle : key (minByFirst key y ys) ≤ key y :=
        minByFirst_le key y ys y (List.mem_cons_self _ _)
      have hlt : key (minByFirst key y ys) < key b := lt_of_le_of_lt hle h
      have hpb : (key b == key (minByFirst key y ys)) = false := by
        simp [ne_of_gt hlt]
      simp only [List.find?_cons, hpb]
      exact ih y
    case isFalse h =>
      rcases minByFirst_eq_or_lt key b ys with heq | hlt
      · rw [heq]
        have hpb : (key b == key b) = true := by simp
        simp only [List.find?_cons, hpb]
      · have hpb : (key b == key (minByFirst key b ys)) = false := by
          simp [ne_of_gt hlt]
        have hpy : (key y == key (minByFirst key b ys)) = false := by
          simp [ne_of_gt (lt_of_lt_of_le hlt (le_of_not_lt h))]
        have hih := ih b
        simp only [List.find?_cons, hpb] at hih
        simp only [List.find?_cons, hpb, hpy]
        exact hih

theorem costsLoop_states (cost : CostFn) (sts : List VState) :
    ∀ (v : Vehicle) (preds : Predictions) (r : List (VState × ℚ) × Vehicle × Predictions),
      costsLoop cost sts v preds = .ok r → r.1.map Prod.fst = sts := by
  induction sts with
  | nil =>
    intro v preds r h
    injection h with h
    rw [← h]
    rfl
  | cons st rest ih =>
    intro v preds r h
    simp only [costsLoop] at h
    cases ht : Vehicle.trajectory_for_state v st preds 5 with
    | error e => rw [ht, bind_err] at h; exact Except.noConfusion h
    | ok tr =>
      rw [ht, bind_ok] at h
      cases hr : costsLoop cost rest tr.2.1 preds with
      | error e => rw [hr, bind_err] at h; exact Except.noConfusion h
      | ok r2 =>
        rw [hr, bind_ok] at h
        injection h with h
        rw [← h]
        simpa using ih tr.2.1 preds r2 hr

theorem candidateStates_eq (v : Vehicle) :
    candidateStates v =
      if v.lane = 0 then
        (if v.lane = v.lanes_available - 1 then [.KL] else [.KL, .LCR])
      else
        (if v.lane = v.lanes_available - 1 then [.KL, .LCL] else [.KL, .LCL, .LCR]) := by
  unfold candidateStates
  split <;> split <;> rfl

theorem mem_candidateStates (v : Vehicle) (x : VState) (hx : x ∈ candidateStates v) :
    (x = .KL ∨ x = .LCL ∨ x = .LCR)
    ∧ (v.lane = 0 → x ≠ .LCL)
    ∧ (v.lane = v.lanes_available - 1 → x ≠ .LCR) := by
  rw [candidateStates_eq] at hx
  by_cases h0 : v.lane = 0
  · by_cases h1 : v.lane = v.lanes_available - 1
    · rw [if_pos h0, if_pos h1] at hx
      have hxe : x = .KL := by simpa using hx
      rw [hxe]
      exact ⟨Or.inl rfl, fun _ => by decide, fun _ => by decide⟩
    · rw [if_pos h0, if_neg h1] at hx
      have hxe : x = .KL ∨ x = .LCR := by simpa using hx
      rcases hxe with rfl | rfl
      · exact ⟨Or.inl rfl, fun _ => by decide, fun _ => by decide⟩
      · exact ⟨Or.inr (Or.inr rfl), fun _ => by decide, fun hc => absurd hc h1⟩
  · by_cases h1 : v.lane = v.lanes_available - 1
    · rw [if_neg h0, if_pos h1] at hx
      have hxe : x = .KL ∨ x = .LCL := by simpa using hx
      rcases hxe with rfl | rfl
      · exact ⟨Or.inl rfl, fun _ => by decide, fun _ => by decide⟩
      · exact ⟨Or.inr (Or.inl rfl), fun h0c => absurd h0c h0, fun _ => by decide⟩
    · rw [if_neg h0, if_neg h1] at hx
      have hxe : x = .KL ∨ x = .LCL ∨ x = .LCR := by simpa using hx
      rcases hxe with rfl | rfl | rfl
      · exact ⟨Or.inl rfl, fun _ => by decide, fun _ => by decide⟩
      · exact ⟨Or.inr (Or.inl rfl), fun h0c => absurd h0c h0, fun _ => by decide⟩
      · exact ⟨Or.inr (Or.inr rfl), fun _ => by decide, fun h1c => absurd h1c h1⟩

theorem get_next_state_mem (cost : CostFn) (v : Vehicle) (preds : Predictions)
    (st : VState) (vr : Vehicle) (pr : Predictions)
    (h : v.get_next_state cost preds = .ok (st, vr, pr)) : st ∈ candidateStates v := by
  cases hc : costsLoop cost (candidateStates v) v preds with
  | error e =>
    simp only [Vehicle.get_next_state, hc, bind_err] at h
    exact Except.noConfusion h
  | ok r =>
    obtain ⟨cs, vm, pm⟩ := r
    have hmap : cs.map Prod.fst = candidateStates v :=
      costsLoop_states cost (candidateStates v) v preds (cs, vm, pm) hc
    simp only [Vehicle.get_next_state, hc, bind_ok] at h
    cases cs with
    | nil => exact Except.noConfusion h
    | cons c cst =>
      injection h with h
      injection h with h1 hrest
      have hm : minByFirst (fun p => p.2) c cst ∈ c :: cst := minByFirst_mem _ c cst
      have hmem : (minByFirst (fun p => p.2) c cst).1 ∈ (c :: cst).map Prod.fst :=
        List.mem_map_of_mem _ hm
      rw [h1] at hmem
      rw [hmap] at hmem
      exact hmem

/-- Witness for C5 at a concrete full planning cycle. -/
theorem predictions_isolated_witness :
    Vehicle.update_state ⟨0, 0, 0, 0, .CS, 1, 0, 1, 0, 0⟩ (fun _ _ _ => (0 : ℚ)) []
      = .ok (⟨0, 0, 0, 0, .KL, 1, 0, 1, 0, 0⟩, [])
    ∧ ([] : Predictions) = [] :=
  ⟨rfl, predictions_isolated (fun _ _ _ => (0 : ℚ)) ⟨0, 0, 0, 0, .CS, 1, 0, 1, 0, 0⟩ [] _ _ rfl⟩

/-- C6 (confirmed): whatever state `update_state` commits is drawn from the
lane-filtered candidate set — never LCL at `lane == 0`, never LCR at
`lane == lanes_available - 1`, and always one of KL, LCL, LCR (the PLC
states are never proposed). -/
theorem state_legality (cost : CostFn) (v : Vehicle) (preds : Predictions)
    (v' : Vehicle) (p' : Predictions)
    (hok : v.update_state cost preds = .ok (v', p')) :
    v'.state ∈ candidateStates v
    ∧ (v.lane = 0 → v'.state ≠ .LCL)
    ∧ (v.lane = v.lanes_available - 1 → v'.state ≠ .LCR)
    ∧ (v'.state = .KL ∨ v'.state = .LCL ∨ v'.state = .LCR) := by
  cases hg : v.get_next_state cost preds with
  | error e =>
    simp only [Vehicle.update_state, hg, bind_err] at hok
    exact Except.noConfusion hok
  | ok g =>
    obtain ⟨stsel, vr, pr⟩ := g
    simp only [Vehicle.update_state, hg, bind_ok] at hok
    injection hok with hok
    injection hok with h1 h2
    have hmem := get_next_state_mem cost v preds stsel vr pr hg
    have hstate : v'.state = stsel := by rw [← h1]
    obtain ⟨ha, hb, hc⟩ := mem_candidateStates v stsel hmem
    rw [hstate]
    exact ⟨hmem, hb, hc, ha⟩

/-- Witness for C6: the ego in the rightmost of two lanes; the committed
state (KL here) lies in the filtered candidate set `[KL, LCL]`. -/
theorem state_legality_witness :
    Vehicle.update_state ⟨1, 0, 0, 0, .CS, 1, 0, 2, 0, 0⟩ (fun _ _ _ => (0 : ℚ)) []
      = .ok (⟨1, 0, 0, 0, .KL, 1, 0, 2, 0, 0⟩, [])
    ∧ ((⟨1, 0, 0, 0, .KL, 1, 0, 2, 0, 0⟩ : Vehicle).state
          ∈ candidateStates ⟨1, 0, 0, 0, .CS, 1, 0, 2, 0, 0⟩
      ∧ ((⟨1, 0, 0, 0, .CS, 1, 0, 2, 0, 0⟩ : Vehicle).lane = 0 →
          (⟨1, 0, 0, 0, .KL, 1, 0, 2, 0, 0⟩ : Vehicle).state ≠ .LCL)
      ∧ ((⟨1, 0, 0, 0, .CS, 1, 0, 2, 0, 0⟩ : Vehicle).lane
            = (⟨1, 0, 0, 0, .CS, 1, 0, 2, 0, 0⟩ : Vehicle).lanes_available - 1 →
          (⟨1, 0, 0, 0, .KL, 1, 0, 2, 0, 0⟩ : Vehicle).state ≠ .LCR)
      ∧ ((⟨1, 0, 0, 0, .KL, 1, 0, 2, 0, 0⟩ : Vehicle).state = .KL
          ∨ (⟨1, 0, 0, 0, .KL, 1, 0, 2, 0, 0⟩ : Vehicle).state = .LCL
          ∨ (⟨1, 0, 0, 0, .KL, 1, 0, 2, 0, 0⟩ : Vehicle).state = .LCR)) :=
  ⟨rfl, state_legality (fun _ _ _ => (0 : ℚ)) ⟨1, 0, 0, 0, .CS, 1, 0, 2, 0, 0⟩ [] _ _ rfl⟩

/-- C7 (confirmed): the scored candidate list follows the fixed filtered
enumeration order, and the selected state is the FIRST candidate in that
order attaining the minimal cost — `min(costs, key=...)` replaces its
running best only on a strictly smaller key, so ties resolve to the earlier
candidate. -/
theorem stable_argmin (cost : CostFn) (v : Vehicle) (preds : Predictions)
    (st : VState) (vr : Vehicle) (pr : Predictions)
    (cs : List (VState × ℚ)) (vm : Vehicle) (pm : Predictions)
    (hcosts : costsLoop cost (candidateStates v) v preds = .ok (cs, vm, pm))
    (hok : v.get_next_state cost preds = .ok (st, vr, pr)) :
    cs.map Prod.fst = candidateStates v
    ∧ ∃ c : ℚ, (∀ q ∈ cs, c ≤ q.2)
        ∧ cs.find? (fun q => q.2 == c) = some (st, c) := by
  have hmap := costsLoop_states cost (candidateStates v) v preds (cs, vm, pm) hcosts
  refine ⟨hmap, ?_⟩
  simp only [Vehicle.get_next_state, hcosts, bind_ok] at hok
  cases cs with
  | nil => exact Except.noConfusion hok
  | cons c0 cst =>
    injection hok with hok
    injection hok with h1 hrest
    refine ⟨(minByFirst (fun p => p.2) c0 cst).2,
      fun q hq => minByFirst_le _ c0 cst q hq, ?_⟩
    rw [← h1, Prod.mk.eta]
    exact minByFirst_find (fun p : VState × ℚ => p.2) c0 cst

/-- Witness for C7: three candidates with identical (tied) costs; the
selector returns KL, the first in the enumeration order. -/
theorem stable_argmin_witness :
    costsLoop (fun _ _ _ => (0 : ℚ)) (candidateStates ⟨1, 0, 0, 0, .CS, 1, 0, 3, 0, 0⟩)
        ⟨1, 0, 0, 0, .CS, 1, 0, 3, 0, 0⟩ []
      = .ok ([(.KL, 0), (.LCL, 0), (.LCR, 0)], ⟨1, 0, 0, 0, .CS, 1, 0, 3, 0, 0⟩, [])
    ∧ Vehicle.get_next_state ⟨1, 0, 0, 0, .CS, 1, 0, 3, 0, 0⟩ (fun _ _ _ => (0 : ℚ)) []
      = .ok (.KL, ⟨1, 0, 0, 0, .CS, 1, 0, 3, 0, 0⟩, [])
    ∧ (([((.KL : VState), (0 : ℚ)), (.LCL, 0), (.LCR, 0)].map Prod.fst
          = candidateStates ⟨1, 0, 0, 0, .CS, 1, 0, 3, 0, 0⟩)
      ∧ ∃ c : ℚ, (∀ q ∈ [((.KL : VState), (0 : ℚ)), (.LCL, 0), (.LCR, 0)], c ≤ q.2)
          ∧ [((.KL : VState), (0 : ℚ)), (.LCL, 0), (.LCR, 0)].find? (fun q => q.2 == c)
              = some (.KL, c)) :=
  ⟨rfl, rfl,
   stable_argmin (fun _ _ _ => (0 : ℚ)) ⟨1, 0, 0, 0, .CS, 1, 0, 3, 0, 0⟩ [] .KL
     ⟨1, 0, 0, 0, .CS, 1, 0, 3, 0, 0⟩ [] [(.KL, 0), (.LCL, 0), (.LCR, 0)]
     ⟨1, 0, 0, 0, .CS, 1, 0, 3, 0, 0⟩ [] rfl rfl⟩
